import Mathlib

/-!
Verification of the coordinate mapper, accessibility-tree parser, element
locator and input-dispatch control flow of `src/cli/src/ios.rs`.

Modelling conventions:

* Rust `f64` values are modelled by `FP`: an exact rational together with the
  IEEE special values `+inf`, `-inf` and `NaN`.  Finite arithmetic is exact
  (we do not model the rounding of individual `f64` operations); the special
  values follow IEEE 754 and Rust's `f64::min` semantics, so the behaviour on
  degenerate inputs (division by a zero frame dimension) is reproduced.
* Rust `f64 as i32` is the saturating truncation toward zero (`f64ToI32`).
* Rust `i32` and `usize` string parsing is modelled exactly ([+-]? digits,
  range check); `f64` parsing is modelled on the plain decimal forms the host
  emits ([+-]? digits [. digits]?), with exact rational semantics.
* Effectful functions are modelled by passing the outcome of each external
  subprocess call as an explicit `Except`/`CmdOutput` parameter; the pure
  control flow around those outcomes is translated from the source.
* Integer arithmetic on element coordinates is modelled on `ℤ` (two's
  complement wrap-around of `i32` addition is not modelled).
-/

/-- Model of a Rust `f64`: an exact rational, or one of the IEEE special
values. -/
inductive FP where
  | fin : ℚ → FP
  | pinf : FP
  | ninf : FP
  | nan : FP
deriving DecidableEq

namespace FP

/-- IEEE addition (exact on finite values). -/
def add : FP → FP → FP
  | fin a, fin b => fin (a + b)
  | fin _, pinf => pinf
  | pinf, fin _ => pinf
  | fin _, ninf => ninf
  | ninf, fin _ => ninf
  | pinf, pinf => pinf
  | ninf, ninf => ninf
  | pinf, ninf => nan
  | ninf, pinf => nan
  | nan, _ => nan
  | _, nan => nan

/-- IEEE subtraction (exact on finite values). -/
def sub : FP → FP → FP
  | fin a, fin b => fin (a - b)
  | fin _, pinf => ninf
  | pinf, fin _ => pinf
  | fin _, ninf => pinf
  | ninf, fin _ => ninf
  | pinf, ninf => pinf
  | ninf, pinf => ninf
  | pinf, pinf => nan
  | ninf, ninf => nan
  | nan, _ => nan
  | _, nan => nan

/-- IEEE multiplication (exact on finite values); `0 * inf = NaN`. -/
def mul : FP → FP → FP
  | fin a, fin b => fin (a * b)
  | fin a, pinf => if 0 < a then pinf else if a < 0 then ninf else nan
  | pinf, fin a => if 0 < a then pinf else if a < 0 then ninf else nan
  | fin a, ninf => if 0 < a then ninf else if a < 0 then pinf else nan
  | ninf, fin a => if 0 < a then ninf else if a < 0 then pinf else nan
  | pinf, pinf => pinf
  | ninf, ninf => pinf
  | pinf, ninf => ninf
  | ninf, pinf => ninf
  | nan, _ => nan
  | _, nan => nan

/-- IEEE division (exact on finite values); a nonzero finite value divided by
(positive) zero is a signed infinity, `0/0 = NaN`. -/
def div : FP → FP → FP
  | fin a, fin b =>
      if b = 0 then (if 0 < a then pinf else if a < 0 then ninf else nan)
      else fin (a / b)
  | fin _, pinf => fin 0
  | fin _, ninf => fin 0
  | pinf, fin b => if 0 ≤ b then pinf else ninf
  | ninf, fin b => if 0 ≤ b then ninf else pinf
  | pinf, pinf => nan
  | pinf, ninf => nan
  | ninf, pinf => nan
  | ninf, ninf => nan
  | nan, _ => nan
  | _, nan => nan

/-- Rust `f64::min` (IEEE-754 minNum: a NaN argument is ignored). -/
def fmin : FP → FP → FP
  | fin a, fin b => fin (min a b)
  | nan, x => x
  | x, nan => x
  | ninf, _ => ninf
  | _, ninf => ninf
  | pinf, x => x
  | x, pinf => x

end FP

/-- Truncation toward zero of a rational, as performed by a Rust
float-to-integer cast on in-range finite values. -/
def ratTrunc (q : ℚ) : ℤ := if 0 ≤ q then ⌊q⌋ else ⌈q⌉

/-- Saturation of an integer to the `i32` range. -/
def i32sat (z : ℤ) : ℤ := max (-2147483648) (min 2147483647 z)

/-- Rust `f64 as i32`: saturating truncation toward zero, `NaN` to `0`. -/
def f64ToI32 : FP → ℤ
  | .fin q => i32sat (ratTrunc q)
  | .pinf => 2147483647
  | .ninf => -2147483648
  | .nan => 0

/-- Pure core of `sim_to_screen_coords` (src/cli/src/ios.rs:82-108), given the
window geometry `(wx, wy, ww, wh)` returned by the window-geometry query and
the screenshot dimensions `(simW, simH)`; translated line by line from the
source with `f64` arithmetic modelled by `FP`. -/
def sim_to_screen_core (simX simY : ℤ) (wx wy ww wh : ℚ) (simW simH : ℕ) :
    ℤ × ℤ :=
  let simWf : FP := .fin (simW : ℚ)
  let simHf : FP := .fin (simH : ℚ)
  let toolbarH : FP := .fin 44
  let contentH : FP := (FP.fin wh).sub toolbarH
  let scaleX : FP := (FP.fin ww).div simWf
  let scaleY : FP := contentH.div simHf
  let scale : FP := scaleX.fmin scaleY
  let contentW : FP := simWf.mul scale
  let actualContentH : FP := simHf.mul scale
  let offsetX : FP := ((FP.fin ww).sub contentW).div (.fin 2)
  let offsetY : FP := toolbarH.add ((contentH.sub actualContentH).div (.fin 2))
  let screenX : FP := ((FP.fin wx).add offsetX).add ((FP.fin (simX : ℚ)).mul scale)
  let screenY : FP := ((FP.fin wy).add offsetY).add ((FP.fin (simY : ℚ)).mul scale)
  (f64ToI32 screenX, f64ToI32 screenY)

/-- The exact rational value of the mapping computed by `sim_to_screen_core`
before the final integer cast (valid-input case: both frame dimensions
positive, so every intermediate `f64` is finite). -/
def sim_to_screen_exactQ (simX simY : ℤ) (wx wy ww wh : ℚ) (simW simH : ℕ) :
    ℚ × ℚ :=
  let contentH : ℚ := wh - 44
  let scale : ℚ := min (ww / (simW : ℚ)) (contentH / (simH : ℚ))
  let offsetX : ℚ := (ww - (simW : ℚ) * scale) / 2
  let offsetY : ℚ := 44 + (contentH - (simH : ℚ) * scale) / 2
  (wx + offsetX + (simX : ℚ) * scale, wy + offsetY + (simY : ℚ) * scale)

/-- `sim_to_screen_coords` (src/cli/src/ios.rs:82-109) with the outcomes of
its two external stages (window-geometry query; screenshot capture + decode)
passed explicitly: the `?` operator propagates their errors, after which the
pure core is total. -/
def sim_to_screen_coords (geom : Except String (ℚ × ℚ × ℚ × ℚ))
    (frame : Except String (ℕ × ℕ)) (simX simY : ℤ) : Except String (ℤ × ℤ) :=
  match geom with
  | .error e => .error e
  | .ok (wx, wy, ww, wh) =>
    match frame with
    | .error e => .error e
    | .ok (fw, fh) => .ok (sim_to_screen_core simX simY wx wy ww wh fw fh)

/-- The aspect-fit algorithm exactly as worded in spec section 4.3, with the
chrome top inset as a parameter and truncation toward zero as the (allowed)
integer conversion policy. -/
def spec_to_screen (topInset : ℚ) (px py : ℤ) (gx gy gw gh : ℚ) (fw fh : ℕ) :
    ℤ × ℤ :=
  let contentH : ℚ := gh - topInset
  let scale : ℚ := min (gw / (fw : ℚ)) (contentH / (fh : ℚ))
  let offsetX : ℚ := (gw - (fw : ℚ) * scale) / 2
  let offsetY : ℚ := topInset + (contentH - (fh : ℚ) * scale) / 2
  (ratTrunc (gx + offsetX + (px : ℚ) * scale),
   ratTrunc (gy + offsetY + (py : ℚ) * scale))


/-- Rust `str::split(sep)` on a character list: splits at every occurrence of
`sep`, keeping empty segments (`"".split(c)` is `[""]`). -/
def splitCharList (sep : Char) : List Char → List (List Char)
  | [] => [[]]
  | c :: cs =>
    let r := splitCharList sep cs
    if c = sep then [] :: r
    else
      match r with
      | [] => [[c]]
      | h :: t => (c :: h) :: t

/-- Rust `str::split(sep)` at the `String` level. -/
def splitOnChar (sep : Char) (s : String) : List String :=
  (splitCharList sep s.data).map String.mk

/-- Rust `str::trim`: drop whitespace from both ends (modelled with ASCII
whitespace, the only kind the host emits). -/
def trimRust (s : String) : String :=
  String.mk
    ((((s.data.dropWhile Char.isWhitespace).reverse.dropWhile
        Char.isWhitespace)).reverse)

/-- Rust `str::to_lowercase`, modelled on the ASCII range (the only case
mapping exercised by the accessibility vocabulary). -/
def toLowerRust (s : String) : String :=
  String.mk (s.data.map Char.toLower)

/-- Needle `n` is a leading segment of `l`. -/
def startsWithList : List Char → List Char → Bool
  | [], _ => true
  | _ :: _, [] => false
  | a :: as, b :: bs => a = b && startsWithList as bs

/-- Rust `str::contains(needle)`: `n` occurs as a contiguous segment of `l`. -/
def hasSubList (n : List Char) : List Char → Bool
  | [] => n.isEmpty
  | b :: t => startsWithList n (b :: t) || hasSubList n t

/-- Rust `String::contains` at the `String` level. -/
def strContains (hay needle : String) : Bool :=
  hasSubList needle.data hay.data

theorem startsWithList_iff (n l : List Char) :
    startsWithList n l = true ↔ ∃ r, l = n ++ r := by
  induction n generalizing l with
  | nil => simp [startsWithList]
  | cons a as ih =>
    cases l with
    | nil => simp [startsWithList]
    | cons b bs =>
      simp only [startsWithList, Bool.and_eq_true, decide_eq_true_eq, ih,
        List.cons_append, List.cons.injEq]
      constructor
      · rintro ⟨rfl, r, rfl⟩
        exact ⟨r, rfl, rfl⟩
      · rintro ⟨r, rfl, rfl⟩
        exact ⟨rfl, r, rfl⟩

/-- Correctness of the substring search: it finds exactly the contiguous
occurrences. -/
theorem hasSubList_iff (n l : List Char) :
    hasSubList n l = true ↔ ∃ p r, l = p ++ n ++ r := by
  induction l with
  | nil =>
    simp only [hasSubList, List.isEmpty_iff]
    constructor
    · rintro rfl
      exact ⟨[], [], rfl⟩
    · rintro ⟨p, r, h⟩
      rcases List.append_eq_nil.mp (List.append_eq_nil.mp h.symm).1 with ⟨-, h2⟩
      exact h2
  | cons b t ih =>
    simp only [hasSubList, Bool.or_eq_true, startsWithList_iff, ih]
    constructor
    · rintro (⟨r, h⟩ | ⟨p, r, h⟩)
      · exact ⟨[], r, by simp [h]⟩
      · exact ⟨b :: p, r, by simp [h]⟩
    · rintro ⟨p, r, h⟩
      cases p with
      | nil =>
        left
        exact ⟨r, by simpa using h⟩
      | cons x xs =>
        right
        simp only [List.cons_append, List.cons.injEq] at h
        exact ⟨xs, r, h.2⟩

/-- Numeric value of a digit list (most significant first). -/
def digitsVal : List Char → ℕ
  | [] => 0
  | cs => cs.foldl (fun a c => 10 * a + (c.toNat - 48)) 0

/-- Unsigned decimal parse: at least one character, all ASCII digits. -/
def parseNatDigits : List Char → Option ℕ
  | [] => none
  | cs => if cs.all Char.isDigit then some (digitsVal cs) else none

/-- Rust `str::parse::<i32>`: optional sign, at least one digit, value within
the `i32` range. -/
def parseI32 (s : String) : Option ℤ :=
  let core : List Char → Option ℤ := fun cs =>
    match cs with
    | '-' :: rest => (parseNatDigits rest).map (fun n => -(n : ℤ))
    | '+' :: rest => (parseNatDigits rest).map (fun n => (n : ℤ))
    | rest => (parseNatDigits rest).map (fun n => (n : ℤ))
  match core s.data with
  | none => none
  | some v => if -2147483648 ≤ v ∧ v ≤ 2147483647 then some v else none

/-- Rust `str::parse::<usize>` (64-bit): optional `+`, at least one digit,
value below `2^64`. -/
def parseUsize (s : String) : Option ℕ :=
  let core : List Char → Option ℕ := fun cs =>
    match cs with
    | '+' :: rest => parseNatDigits rest
    | rest => parseNatDigits rest
  match core s.data with
  | none => none
  | some v => if v < 18446744073709551616 then some v else none

/-- Rust `str::parse::<f64>` on the plain decimal forms the host emits
(optional sign, digits, optional decimal point and fraction digits; at least
one digit overall), with exact rational semantics; the exponent, `inf` and
`NaN` forms, which the host window query never produces, are not modelled. -/
def parseF64 (s : String) : Option ℚ :=
  let core : List Char → Option ℚ := fun cs =>
    let intPart := cs.takeWhile Char.isDigit
    let rest := cs.dropWhile Char.isDigit
    match rest with
    | [] => if intPart.isEmpty then none else some (digitsVal intPart : ℚ)
    | '.' :: fracPart =>
      if fracPart.all Char.isDigit ∧ ¬(intPart.isEmpty ∧ fracPart.isEmpty) then
        some ((digitsVal intPart : ℚ) +
          (digitsVal fracPart : ℚ) / (10 ^ fracPart.length : ℕ))
      else none
    | _ => none
  match s.data with
  | '-' :: rest => (core rest).map Neg.neg
  | '+' :: rest => core rest
  | cs => core cs

/-- UI element scraped from the accessibility tree (src/cli/src/ios.rs:355-368);
`i32` coordinates modelled on `ℤ`. -/
structure UiElement where
  index : ℕ
  role : String
  title : String
  value : String
  description : String
  x : ℤ
  y : ℤ
  width : ℤ
  height : ℤ
deriving DecidableEq

/-- Normalisation of the host's "missing value" sentinel to the empty string,
as applied to the title, value and description fields. -/
def normField (s : String) : String :=
  if s = "missing value" then "" else s

/-- Components of the position field of a line that parse as `i32`
(`parts[5].split(',').filter_map(...)`, src/cli/src/ios.rs:426). -/
def posComponents (line : String) : List ℤ :=
  (splitOnChar ',' ((splitOnChar '|' line).getD 5 "")).filterMap
    (fun s => parseI32 (trimRust s))

/-- Components of the size field of a line that parse as `i32`
(`parts[6].split('x').filter_map(...)`, src/cli/src/ios.rs:427). -/
def sizeComponents (line : String) : List ℤ :=
  (splitOnChar 'x' ((splitOnChar '|' line).getD 6 "")).filterMap
    (fun s => parseI32 (trimRust s))

/-- Parse of one line of the accessibility dump (loop body of
`get_accessibility_elements`, src/cli/src/ios.rs:416-442): split on `|`,
skip the line if fewer than 7 fields, parse the position field on `,` and the
size field on `x` keeping only components that parse as `i32`, and skip the
line unless both yield exactly 2 components. -/
def parseLine (line : String) : Option UiElement :=
  let parts := splitOnChar '|' line
  if parts.length < 7 then none
  else
    let index := (parseUsize (parts.getD 0 "")).getD 0
    let role := parts.getD 1 ""
    let title := normField (parts.getD 2 "")
    let value := normField (parts.getD 3 "")
    let description := normField (parts.getD 4 "")
    let pos := posComponents line
    let size := sizeComponents line
    if pos.length = 2 ∧ size.length = 2 then
      some ⟨index, role, title, value, description,
        pos.getD 0 0, pos.getD 1 0, size.getD 0 0, size.getD 1 0⟩
    else none

/-- Rust `str::lines`: split on `\n`, drop a single trailing empty segment,
strip one trailing `\r` from each line. -/
def rustLines (s : String) : List String :=
  let parts := splitOnChar '\n' s
  let parts := if parts.getLast? = some "" then parts.dropLast else parts
  parts.map (fun l =>
    if l.data.getLast? = some '\x0d' then String.mk l.data.dropLast else l)

/-- One step of the element-accumulation loop: push an element if the line
parses, keep the accumulator unchanged otherwise. -/
def pushParsed (acc : List UiElement) (line : String) : List UiElement :=
  match parseLine line with
  | some e => acc ++ [e]
  | none => acc

/-- Element-accumulation loop of `get_accessibility_elements`
(src/cli/src/ios.rs:414-442): push an element for each line that parses. -/
def accumulate_elements (lines : List String) : List UiElement :=
  lines.foldl pushParsed []

/-- `get_accessibility_elements` (src/cli/src/ios.rs:371-445) applied to the
captured stdout of the accessibility dump. -/
def get_accessibility_elements (stdout : String) : List UiElement :=
  accumulate_elements (rustLines stdout)

/-- Rust `i32` division: truncation toward zero. -/
def rustDiv (a b : ℤ) : ℤ := Int.tdiv a b

/-- Match predicate of `find_element` (src/cli/src/ios.rs:657-659): the
lowercased query occurs in the lowercased title, value or description. -/
def matchesQuery (query : String) (e : UiElement) : Bool :=
  strContains (toLowerRust e.title) (toLowerRust query) ||
  strContains (toLowerRust e.value) (toLowerRust query) ||
  strContains (toLowerRust e.description) (toLowerRust query)

/-- Pure core of `find_element` (src/cli/src/ios.rs:652-675): first element in
input order that matches the query and has positive width and height; returns
its center, computed with Rust `i32` division. -/
def find_element (elements : List UiElement) (query : String) :
    Option (ℤ × ℤ) :=
  match elements.find?
      (fun e => matchesQuery query e && decide (0 < e.width) &&
        decide (0 < e.height)) with
  | some e => some (e.x + rustDiv e.width 2, e.y + rustDiv e.height 2)
  | none => none

/-- `find_element` with the outcome of the accessibility scrape passed
explicitly: a scrape failure propagates (`?`), while "no match" is the normal
`Ok(None)` result. -/
def find_element_model (scrape : Except String (List UiElement))
    (query : String) : Except String (Option (ℤ × ℤ)) :=
  match scrape with
  | .error e => .error e
  | .ok elements => .ok (find_element elements query)

/-- Captured exit information of a finished subprocess (`std::process::Output`
restricted to what the code inspects). -/
structure CmdOutput where
  success : Bool
  stdout : String
  stderr : String
deriving DecidableEq

/-- Numeric components of the window-geometry record: split the trimmed
stdout on `,` and keep the components that parse as `f64`
(src/cli/src/ios.rs:67-70). -/
def geomNumericParts (text : String) : List ℚ :=
  (splitOnChar ',' (trimRust text)).filterMap (fun s => parseF64 (trimRust s))

/-- `get_simulator_window_geometry` (src/cli/src/ios.rs:47-77) with the
outcome of the `osascript` call passed explicitly: a spawn failure propagates;
otherwise the comma-joined record must yield exactly 4 numeric components,
which are returned as (x, y, width, height) in input order. -/
def get_simulator_window_geometry (spawn : Except String CmdOutput) :
    Except String (ℚ × ℚ × ℚ × ℚ) :=
  match spawn with
  | .error e => .error e
  | .ok out =>
    let parts := geomNumericParts out.stdout
    if parts.length = 4 then
      .ok (parts.getD 0 0, parts.getD 1 0, parts.getD 2 0, parts.getD 3 0)
    else
      .error ("Failed to parse window geometry: " ++ trimRust out.stdout)

/-- `tap` (src/cli/src/ios.rs:191-216) after coordinate resolution: the
`osascript` dispatch result passes through `?` with added context, so a spawn
failure is surfaced, while a non-success exit status only prints a warning. -/
def tap (res : Except String (ℤ × ℤ)) (dispatch : Except String CmdOutput) :
    Except String Unit :=
  match res with
  | .error e => .error e
  | .ok _ =>
    match dispatch with
    | .error e => .error ("Failed to tap via AppleScript: " ++ e)
    | .ok _ => .ok ()

/-- `long_press` (src/cli/src/ios.rs:129-153) after coordinate resolution:
the dispatch result is bound to `_` and discarded entirely. -/
def long_press (res : Except String (ℤ × ℤ))
    (_dispatch : Except String CmdOutput) : Except String Unit :=
  match res with
  | .error e => .error e
  | .ok _ => .ok ()

/-- `swipe` (src/cli/src/ios.rs:219-258) after resolving both endpoints: on
either branch of the `which cliclick` probe, every dispatch result is bound to
`_` and discarded. -/
def swipe (res1 res2 : Except String (ℤ × ℤ)) (_whichCliclick : Except String CmdOutput)
    (_activate _dispatch1 _dispatch2 : Except String CmdOutput) :
    Except String Unit :=
  match res1 with
  | .error e => .error e
  | .ok _ =>
    match res2 with
    | .error e => .error e
    | .ok _ => .ok ()

/-- The line keep-criterion exactly as the claim words it: splitting on the
delimiter yields exactly 7 fields, and the position and size fields each yield
exactly 2 numeric components (comparison definition for the refinement
check against `parseLine`). -/
def specWellFormedLine (line : String) : Prop :=
  (splitOnChar '|' line).length = 7 ∧
  (posComponents line).length = 2 ∧
  (sizeComponents line).length = 2

instance (line : String) : Decidable (specWellFormedLine line) := by
  unfold specWellFormedLine
  infer_instance

@[simp] theorem FP.add_fin (a b : ℚ) : FP.add (.fin a) (.fin b) = .fin (a + b) := rfl

@[simp] theorem FP.sub_fin (a b : ℚ) : FP.sub (.fin a) (.fin b) = .fin (a - b) := rfl

@[simp] theorem FP.mul_fin (a b : ℚ) : FP.mul (.fin a) (.fin b) = .fin (a * b) := rfl

@[simp] theorem FP.fmin_fin (a b : ℚ) : FP.fmin (.fin a) (.fin b) = .fin (min a b) := rfl

theorem FP.div_fin {b : ℚ} (a : ℚ) (hb : b ≠ 0) :
    FP.div (.fin a) (.fin b) = .fin (a / b) := by
  simp [FP.div, hb]

theorem i32sat_eq_self {z : ℤ} (h1 : -2147483648 ≤ z) (h2 : z ≤ 2147483647) :
    i32sat z = z := by
  unfold i32sat
  omega

/-- On positive frame dimensions every intermediate value is finite, so the
core computes the saturating truncation of the exact rational mapping. -/
theorem sim_to_screen_core_eq_exact (simX simY : ℤ) (wx wy ww wh : ℚ)
    (simW simH : ℕ) (hW : 0 < simW) (hH : 0 < simH) :
    sim_to_screen_core simX simY wx wy ww wh simW simH =
      (i32sat (ratTrunc (sim_to_screen_exactQ simX simY wx wy ww wh simW simH).1),
       i32sat (ratTrunc (sim_to_screen_exactQ simX simY wx wy ww wh simW simH).2)) := by
  have hW' : ((simW : ℚ)) ≠ 0 := by
    exact_mod_cast Nat.pos_iff_ne_zero.mp hW
  have hH' : ((simH : ℚ)) ≠ 0 := by
    exact_mod_cast Nat.pos_iff_ne_zero.mp hH
  have h2 : ((2 : ℚ)) ≠ 0 := by norm_num
  unfold sim_to_screen_core sim_to_screen_exactQ
  simp only [FP.div_fin _ hW', FP.div_fin _ hH', FP.sub_fin, FP.add_fin,
    FP.mul_fin, FP.fmin_fin, FP.div_fin _ h2, f64ToI32]

/-- C1: for every device-space point, window geometry and positive frame size,
`sim_to_screen_coords` computes exactly the aspect-fit algorithm of spec
section 4.3 (with the code's chrome top inset of 44), the result converted to
integer host-screen units by consistent truncation toward zero (the in-range
hypotheses discharge the `i32` saturation of the Rust float-to-int cast). -/
theorem sim_to_screen_matches_spec (px py : ℤ) (gx gy gw gh : ℚ) (fw fh : ℕ)
    (hfw : 0 < fw) (hfh : 0 < fh)
    (hx1 : -2147483648 ≤ (spec_to_screen 44 px py gx gy gw gh fw fh).1)
    (hx2 : (spec_to_screen 44 px py gx gy gw gh fw fh).1 ≤ 2147483647)
    (hy1 : -2147483648 ≤ (spec_to_screen 44 px py gx gy gw gh fw fh).2)
    (hy2 : (spec_to_screen 44 px py gx gy gw gh fw fh).2 ≤ 2147483647) :
    sim_to_screen_core px py gx gy gw gh fw fh =
      spec_to_screen 44 px py gx gy gw gh fw fh := by
  have hs : spec_to_screen 44 px py gx gy gw gh fw fh =
      (ratTrunc (sim_to_screen_exactQ px py gx gy gw gh fw fh).1,
       ratTrunc (sim_to_screen_exactQ px py gx gy gw gh fw fh).2) := rfl
  rw [hs] at hx1 hx2 hy1 hy2
  rw [sim_to_screen_core_eq_exact px py gx gy gw gh fw fh hfw hfh, hs]
  rw [Prod.mk.injEq]
  exact ⟨i32sat_eq_self hx1 hx2, i32sat_eq_self hy1 hy2⟩

/-- Witness for C1 at the spec section 8 end-to-end example: geometry
`{x:100, y:50, width:400, height:866}`, chrome top inset 44, frame size
1206x2622, device point (603, 1311); both computations give (300, 505). -/
theorem sim_to_screen_matches_spec_witness :
    ((0 < 1206 ∧ 0 < 2622) ∧
      -2147483648 ≤ (spec_to_screen 44 603 1311 100 50 400 866 1206 2622).1 ∧
      (spec_to_screen 44 603 1311 100 50 400 866 1206 2622).1 ≤ 2147483647 ∧
      -2147483648 ≤ (spec_to_screen 44 603 1311 100 50 400 866 1206 2622).2 ∧
      (spec_to_screen 44 603 1311 100 50 400 866 1206 2622).2 ≤ 2147483647) ∧
    sim_to_screen_core 603 1311 100 50 400 866 1206 2622 =
      spec_to_screen 44 603 1311 100 50 400 866 1206 2622 := by
  have hspec : spec_to_screen 44 603 1311 100 50 400 866 1206 2622 = (300, 505) := by
    unfold spec_to_screen
    norm_num [ratTrunc, min_def]
  refine ⟨⟨⟨by norm_num, by norm_num⟩, ?_, ?_, ?_, ?_⟩, ?_⟩
  · rw [hspec]; norm_num
  · rw [hspec]; norm_num
  · rw [hspec]; norm_num
  · rw [hspec]; norm_num
  · exact sim_to_screen_matches_spec 603 1311 100 50 400 866 1206 2622
      (by norm_num) (by norm_num)
      (by rw [hspec]; norm_num) (by rw [hspec]; norm_num)
      (by rw [hspec]; norm_num) (by rw [hspec]; norm_num)

/-- C2 counterexample: with frame width 0 (and frame height 10, geometry
(0, 0, 100, 144)) the code does not fail at all: the `f64` division by zero
produces `+inf`, `f64::min` discards it, and the call returns `Ok((50, 44))`.
No `InvalidFrameSize` or `DegenerateGeometry` error exists in the source. -/
theorem sim_to_screen_zero_frame_returns_ok :
    sim_to_screen_coords (.ok (0, 0, 100, 144)) (.ok (0, 10)) 0 0 =
      .ok (50, 44) := by
  unfold sim_to_screen_coords sim_to_screen_core
  norm_num [FP.div, FP.fmin, FP.sub, FP.add, FP.mul, f64ToI32, ratTrunc, i32sat]

/-- C2 amended: `sim_to_screen_coords` performs no frame-size or scale
validation; it fails exactly when one of its two external stages (window
geometry query, screenshot capture/decode) fails, and otherwise returns a
coordinate — even for zero frame dimensions or non-positive scale. -/
theorem sim_to_screen_ok_iff_stages_ok (geom : Except String (ℚ × ℚ × ℚ × ℚ))
    (frame : Except String (ℕ × ℕ)) (simX simY : ℤ) :
    (sim_to_screen_coords geom frame simX simY).isOk =
      (geom.isOk && frame.isOk) := by
  cases geom with
  | error e => rfl
  | ok g =>
    obtain ⟨wx, wy, ww, wh⟩ := g
    cases frame with
    | error e => rfl
    | ok f =>
      obtain ⟨fw, fh⟩ := f
      rfl

/-- C5 counterexample: geometry (0, 0, 1, 1) has positive width and height and
frame size 1x1 is positive, yet device point (0, 0) maps to (22, 44), whose x
coordinate lies outside [geometry.x, geometry.x + geometry.width] = [0, 1]
(the window is smaller than the 44-unit chrome inset, so the scale is
negative). -/
theorem sim_to_screen_origin_outside_box :
    sim_to_screen_core 0 0 0 0 1 1 1 1 = (22, 44) ∧ ¬ ((22 : ℚ) ≤ 0 + 1) := by
  constructor
  · unfold sim_to_screen_core
    norm_num [FP.div, FP.fmin, FP.sub, FP.add, FP.mul, f64ToI32, ratTrunc,
      i32sat, min_def]
  · norm_num

/-- C5 amended: for positive frame dimensions, positive geometry width and
geometry height strictly greater than the 44-unit chrome inset, the exact
(pre-truncation) image of device point (0, 0) lies within
[geometry.x, geometry.x + geometry.width] x
[geometry.y + 44, geometry.y + geometry.height], and the returned integer
point is its saturating truncation toward zero. -/
theorem sim_to_screen_origin_in_box (gx gy gw gh : ℚ) (fw fh : ℕ)
    (hfw : 0 < fw) (hfh : 0 < fh) (hgw : 0 < gw) (hgh : 44 < gh) :
    (gx ≤ (sim_to_screen_exactQ 0 0 gx gy gw gh fw fh).1 ∧
     (sim_to_screen_exactQ 0 0 gx gy gw gh fw fh).1 ≤ gx + gw ∧
     gy + 44 ≤ (sim_to_screen_exactQ 0 0 gx gy gw gh fw fh).2 ∧
     (sim_to_screen_exactQ 0 0 gx gy gw gh fw fh).2 ≤ gy + gh) ∧
    sim_to_screen_core 0 0 gx gy gw gh fw fh =
      (i32sat (ratTrunc (sim_to_screen_exactQ 0 0 gx gy gw gh fw fh).1),
       i32sat (ratTrunc (sim_to_screen_exactQ 0 0 gx gy gw gh fw fh).2)) := by
  have hfwQ : (0 : ℚ) < fw := by exact_mod_cast hfw
  have hfhQ : (0 : ℚ) < fh := by exact_mod_cast hfh
  constructor
  · simp only [sim_to_screen_exactQ]
    set s : ℚ := min (gw / (fw : ℚ)) ((gh - 44) / (fh : ℚ)) with hs
    have hs1 : s ≤ gw / (fw : ℚ) := min_le_left _ _
    have hs2 : s ≤ (gh - 44) / (fh : ℚ) := min_le_right _ _
    have hspos : 0 < s :=
      lt_min (div_pos hgw hfwQ) (div_pos (by linarith) hfhQ)
    have h1 : s * (fw : ℚ) ≤ gw := (le_div_iff₀ hfwQ).mp hs1
    have h2 : s * (fh : ℚ) ≤ gh - 44 := (le_div_iff₀ hfhQ).mp hs2
    have h3 : 0 < (fw : ℚ) * s := mul_pos hfwQ hspos
    have h4 : 0 < (fh : ℚ) * s := mul_pos hfhQ hspos
    push_cast
    refine ⟨by nlinarith, by nlinarith, by nlinarith, by nlinarith⟩
  · exact sim_to_screen_core_eq_exact 0 0 gx gy gw gh fw fh hfw hfh

/-- Witness for C5 (amended) at geometry (0, 0, 100, 144), frame size 10x10:
the hypotheses hold and the exact image of (0, 0) is inside the box. -/
theorem sim_to_screen_origin_in_box_witness :
    ((0 < 10 ∧ (0 : ℚ) < 100) ∧ (44 : ℚ) < 144) ∧
    ((0 ≤ (sim_to_screen_exactQ 0 0 0 0 100 144 10 10).1 ∧
      (sim_to_screen_exactQ 0 0 0 0 100 144 10 10).1 ≤ 0 + 100 ∧
      0 + 44 ≤ (sim_to_screen_exactQ 0 0 0 0 100 144 10 10).2 ∧
      (sim_to_screen_exactQ 0 0 0 0 100 144 10 10).2 ≤ 0 + 144) ∧
     sim_to_screen_core 0 0 0 0 100 144 10 10 =
       (i32sat (ratTrunc (sim_to_screen_exactQ 0 0 0 0 100 144 10 10).1),
        i32sat (ratTrunc (sim_to_screen_exactQ 0 0 0 0 100 144 10 10).2))) :=
  ⟨⟨⟨by norm_num, by norm_num⟩, by norm_num⟩,
   sim_to_screen_origin_in_box 0 0 100 144 10 10
     (by norm_num) (by norm_num) (by norm_num) (by norm_num)⟩

theorem foldl_pushParsed_eq (lines : List String) (acc : List UiElement) :
    lines.foldl pushParsed acc = acc ++ lines.filterMap parseLine := by
  induction lines generalizing acc with
  | nil => simp
  | cons l ls ih =>
    cases h : parseLine l with
    | none => simp [List.foldl_cons, List.filterMap_cons, pushParsed, h, ih]
    | some e => simp [List.foldl_cons, List.filterMap_cons, pushParsed, h, ih]

theorem length_filterMap_eq_countP (f : α → Option β) (l : List α) :
    (l.filterMap f).length = l.countP (fun a => (f a).isSome) := by
  induction l with
  | nil => rfl
  | cons a t ih =>
    cases h : f a <;>
      simp [List.filterMap_cons, h, List.countP_cons, ih]

theorem parseLine_isSome_iff (line : String) :
    (parseLine line).isSome = true ↔
      (7 ≤ (splitOnChar '|' line).length ∧ (posComponents line).length = 2 ∧
        (sizeComponents line).length = 2) := by
  simp only [parseLine]
  split_ifs with h1 h2
  · simp only [Option.isSome_none, Bool.false_eq_true, false_iff]
    rintro ⟨h7, -⟩
    omega
  · simp only [Option.isSome_some, true_iff]
    exact ⟨by omega, h2.1, h2.2⟩
  · simp only [Option.isSome_none, Bool.false_eq_true, false_iff]
    rintro ⟨-, hp, hs⟩
    exact h2 ⟨hp, hs⟩

/-- C3 counterexample: the code keeps a line whose splitting yields 8 fields
(the claim's criterion says only lines with exactly 7 fields are kept), so a
dump whose lines are all malformed in the claim's sense can still yield
elements. -/
theorem parseLine_keeps_eight_field_line :
    parseLine "0|r|t|v|d|1,2|3x4|e" =
      some ⟨0, "r", "t", "v", "d", 1, 2, 3, 4⟩ ∧
    ¬ specWellFormedLine "0|r|t|v|d|1,2|3x4|e" := by
  constructor
  · decide
  · decide

/-- C3 amended: the parser processes lines independently and keeps a line iff
splitting on the delimiter yields at least 7 fields and the position and size
fields each yield exactly 2 numeric components; kept lines produce elements in
input order, so a dump yields exactly as many elements as lines satisfying
that criterion. -/
theorem get_accessibility_elements_keeps_wellformed (stdout line : String) :
    get_accessibility_elements stdout = (rustLines stdout).filterMap parseLine ∧
    (get_accessibility_elements stdout).length =
      (rustLines stdout).countP (fun l => (parseLine l).isSome) ∧
    ((parseLine line).isSome = true ↔
      (7 ≤ (splitOnChar '|' line).length ∧ (posComponents line).length = 2 ∧
        (sizeComponents line).length = 2)) := by
  refine ⟨?_, ?_, parseLine_isSome_iff line⟩
  · unfold get_accessibility_elements accumulate_elements
    rw [foldl_pushParsed_eq]
    simp
  · unfold get_accessibility_elements accumulate_elements
    rw [foldl_pushParsed_eq]
    simp [length_filterMap_eq_countP]

theorem normField_ne_sentinel (s : String) : normField s ≠ "missing value" := by
  unfold normField
  split_ifs with h
  · decide
  · exact h

/-- C6: every parsed element has the "missing value" sentinel normalised to
the empty string in its title, value and description fields, and the literal
sentinel text never appears in any of those fields. -/
theorem parseLine_normalizes_missing_value (line : String) (e : UiElement)
    (h : parseLine line = some e) :
    ((splitOnChar '|' line).getD 2 "" = "missing value" → e.title = "") ∧
    ((splitOnChar '|' line).getD 3 "" = "missing value" → e.value = "") ∧
    ((splitOnChar '|' line).getD 4 "" = "missing value" → e.description = "") ∧
    e.title ≠ "missing value" ∧ e.value ≠ "missing value" ∧
    e.description ≠ "missing value" := by
  simp only [parseLine] at h
  split_ifs at h with h1 h2
  rcases Option.some.inj h with rfl
  refine ⟨?_, ?_, ?_, normField_ne_sentinel _, normField_ne_sentinel _,
    normField_ne_sentinel _⟩
  · intro hm
    show normField ((splitOnChar '|' line).getD 2 "") = ""
    rw [hm]
    decide
  · intro hm
    show normField ((splitOnChar '|' line).getD 3 "") = ""
    rw [hm]
    decide
  · intro hm
    show normField ((splitOnChar '|' line).getD 4 "") = ""
    rw [hm]
    decide

/-- Witness for C6 at a line whose title, value and description all carry the
sentinel: the parsed element has all three fields empty. -/
theorem parseLine_normalizes_missing_value_witness :
    parseLine "5|AXButton|missing value|missing value|missing value|1,2|3x4" =
      some ⟨5, "AXButton", "", "", "", 1, 2, 3, 4⟩ ∧
    (((splitOnChar '|'
        "5|AXButton|missing value|missing value|missing value|1,2|3x4").getD
          2 "" = "missing value" →
      (UiElement.mk 5 "AXButton" "" "" "" 1 2 3 4).title = "") ∧
     ((splitOnChar '|'
        "5|AXButton|missing value|missing value|missing value|1,2|3x4").getD
          3 "" = "missing value" →
      (UiElement.mk 5 "AXButton" "" "" "" 1 2 3 4).value = "") ∧
     ((splitOnChar '|'
        "5|AXButton|missing value|missing value|missing value|1,2|3x4").getD
          4 "" = "missing value" →
      (UiElement.mk 5 "AXButton" "" "" "" 1 2 3 4).description = "") ∧
     (UiElement.mk 5 "AXButton" "" "" "" 1 2 3 4).title ≠ "missing value" ∧
     (UiElement.mk 5 "AXButton" "" "" "" 1 2 3 4).value ≠ "missing value" ∧
     (UiElement.mk 5 "AXButton" "" "" "" 1 2 3 4).description ≠
       "missing value") :=
  ⟨by decide,
   parseLine_normalizes_missing_value
     "5|AXButton|missing value|missing value|missing value|1,2|3x4"
     (UiElement.mk 5 "AXButton" "" "" "" 1 2 3 4) (by decide)⟩

/-- C4: `find_element` returns the geometric center (x + width/2,
y + height/2, floor division) of the first element in input order whose text
matches the query and whose width and height are both positive; the code's
truncating `i32` division agrees with floor division because the selected
element's dimensions are positive. -/
theorem find_element_first_positive_match (elements : List UiElement)
    (query : String) :
    find_element elements query =
      (elements.find? (fun e => matchesQuery query e && decide (0 < e.width) &&
        decide (0 < e.height))).map
        (fun e => (e.x + Int.fdiv e.width 2, e.y + Int.fdiv e.height 2)) := by
  unfold find_element
  cases hf : elements.find? (fun e => matchesQuery query e &&
      decide (0 < e.width) && decide (0 < e.height)) with
  | none => rfl
  | some e =>
    have hp := List.find?_some hf
    simp only [Bool.and_eq_true, decide_eq_true_eq] at hp
    obtain ⟨⟨-, hw⟩, hh⟩ := hp
    have hdw : rustDiv e.width 2 = Int.fdiv e.width 2 := by
      unfold rustDiv
      rw [Int.tdiv_eq_ediv (le_of_lt hw) (by norm_num),
        Int.fdiv_eq_ediv _ (by norm_num)]
    have hdh : rustDiv e.height 2 = Int.fdiv e.height 2 := by
      unfold rustDiv
      rw [Int.tdiv_eq_ediv (le_of_lt hh) (by norm_num),
        Int.fdiv_eq_ediv _ (by norm_num)]
    simp only [Option.map_some', hdw, hdh]

/-- C7: matching is case-insensitive substring containment — the result is
invariant under case variants of the query, and an element matches exactly
when at least one of its three text fields contains the lowercased query as a
contiguous substring. -/
theorem find_element_case_insensitive (elements : List UiElement)
    (q1 q2 : String) (e : UiElement) (h : toLowerRust q1 = toLowerRust q2) :
    find_element elements q1 = find_element elements q2 ∧
    (matchesQuery q1 e = true ↔
      ((∃ p r, (toLowerRust e.title).data = p ++ (toLowerRust q1).data ++ r) ∨
       (∃ p r, (toLowerRust e.value).data = p ++ (toLowerRust q1).data ++ r) ∨
       (∃ p r, (toLowerRust e.description).data =
          p ++ (toLowerRust q1).data ++ r))) := by
  constructor
  · simp only [find_element, matchesQuery, h]
  · simp only [matchesQuery, strContains, Bool.or_eq_true, hasSubList_iff]
    exact or_assoc

/-- Witness for C7: "Login" and "login" give the same result on a concrete
element list, and the match predicate is the substring characterisation. -/
theorem find_element_case_insensitive_witness :
    toLowerRust "Login" = toLowerRust "login" ∧
    (find_element [⟨0, "AXButton", "Login Button", "", "", 10, 20, 100, 40⟩]
        "Login" =
      find_element [⟨0, "AXButton", "Login Button", "", "", 10, 20, 100, 40⟩]
        "login" ∧
     (matchesQuery "Login"
        ⟨0, "AXButton", "Login Button", "", "", 10, 20, 100, 40⟩ = true ↔
      ((∃ p r, (toLowerRust "Login Button").data =
          p ++ (toLowerRust "Login").data ++ r) ∨
       (∃ p r, (toLowerRust "").data = p ++ (toLowerRust "Login").data ++ r) ∨
       (∃ p r, (toLowerRust "").data =
          p ++ (toLowerRust "Login").data ++ r)))) :=
  ⟨by decide,
   find_element_case_insensitive
     [⟨0, "AXButton", "Login Button", "", "", 10, 20, 100, 40⟩]
     "Login" "login"
     ⟨0, "AXButton", "Login Button", "", "", 10, 20, 100, 40⟩ (by decide)⟩

/-- C8: `find_element` yields `Ok(None)` — not an error — on an empty element
list and on any list in which no element's text fields contain the query. -/
theorem find_element_none_when_no_match (elements : List UiElement)
    (query q2 : String) (h : ∀ e ∈ elements, matchesQuery query e = false) :
    find_element_model (.ok elements) query = .ok none ∧
    find_element_model (.ok []) q2 = .ok none := by
  refine ⟨?_, rfl⟩
  simp only [find_element_model, find_element]
  have hn : elements.find? (fun e => matchesQuery query e &&
      decide (0 < e.width) && decide (0 < e.height)) = none :=
    List.find?_eq_none.mpr (fun e he => by simp [h e he])
  rw [hn]

/-- Witness for C8: one non-matching element, and the empty list. -/
theorem find_element_none_when_no_match_witness :
    (∀ e ∈ [(⟨0, "AXButton", "Cancel", "", "", 0, 0, 10, 10⟩ : UiElement)],
      matchesQuery "login" e = false) ∧
    (find_element_model
        (.ok [(⟨0, "AXButton", "Cancel", "", "", 0, 0, 10, 10⟩ : UiElement)])
        "login" = .ok none ∧
     find_element_model (.ok []) "anything" = .ok none) :=
  ⟨by decide,
   find_element_none_when_no_match
     [(⟨0, "AXButton", "Cancel", "", "", 0, 0, 10, 10⟩ : UiElement)]
     "login" "anything" (by decide)⟩

/-- C9: the window-geometry resolver propagates a failed host query, fails
when the comma-joined record does not yield exactly 4 numeric components, and
returns the 4 components as (x, y, width, height) in input order when it
does. -/
theorem get_simulator_window_geometry_contract (err : String)
    (out : CmdOutput) (a b c d : ℚ) :
    get_simulator_window_geometry (.error err) = .error err ∧
    ((geomNumericParts out.stdout).length ≠ 4 →
      (get_simulator_window_geometry (.ok out)).isOk = false) ∧
    (geomNumericParts out.stdout = [a, b, c, d] →
      get_simulator_window_geometry (.ok out) = .ok (a, b, c, d)) := by
  refine ⟨rfl, ?_, ?_⟩
  · intro h
    simp [get_simulator_window_geometry, h, Except.isOk, Except.toBool]
  · intro h
    simp [get_simulator_window_geometry, h]

/-- Witness for C9: the record "1,2,3" has only 3 numeric components and the
resolver fails on it, while "100, 50,400,866" has exactly 4 and they are
returned in order. -/
theorem get_simulator_window_geometry_contract_witness :
    ((geomNumericParts (CmdOutput.mk true "1,2,3\n" "").stdout).length ≠ 4 ∧
     (get_simulator_window_geometry
        (.ok (CmdOutput.mk true "1,2,3\n" ""))).isOk = false) ∧
    (geomNumericParts (CmdOutput.mk true "100, 50,400,866\n" "").stdout =
      [100, 50, 400, 866] ∧
     get_simulator_window_geometry
        (.ok (CmdOutput.mk true "100, 50,400,866\n" "")) =
      .ok (100, 50, 400, 866)) :=
  ⟨⟨by decide,
    (get_simulator_window_geometry_contract "ignored"
       (CmdOutput.mk true "1,2,3\n" "") 0 0 0 0).2.1 (by decide)⟩,
   ⟨by decide,
    (get_simulator_window_geometry_contract "ignored"
       (CmdOutput.mk true "100, 50,400,866\n" "") 100 50 400 866).2.2
      (by decide)⟩⟩

/-- C10 counterexample: when the `osascript` dispatch subprocess cannot be
spawned, `tap` does not return success — the spawn failure passes through the
`?` operator with added context and is surfaced to the caller. -/
theorem tap_propagates_spawn_failure :
    tap (.ok (10, 20)) (.error "spawn failed") =
      .error "Failed to tap via AppleScript: spawn failed" := rfl

/-- C10 amended: after successful coordinate resolution, `long_press` and
`swipe` discard the dispatch outcome entirely and always return success, and
`tap` ignores the dispatch exit status (a non-success status only prints a
warning) but propagates a spawn failure of `osascript` as an error. -/
theorem dispatch_outcome_handling (c c2 : ℤ × ℤ)
    (d w a d1 d2 : Except String CmdOutput) (out : CmdOutput) (err : String) :
    long_press (.ok c) d = .ok () ∧
    swipe (.ok c) (.ok c2) w a d1 d2 = .ok () ∧
    tap (.ok c) (.ok out) = .ok () ∧
    tap (.ok c) (.error err) =
      .error ("Failed to tap via AppleScript: " ++ err) :=
  ⟨rfl, rfl, rfl, rfl⟩
